import Mathlib

/-!
Verification of the ridge-code response-to-action pipeline.

Shallow embedding, translated from the TypeScript sources:
  * `src/response/ResponseBuffer.ts`   — bounded FIFO history buffer
  * `src/aidis/AidisResponseParser.ts` — embedded-command extractor (regex scan,
    JSON parse, zod-style schema validation) and the HTTP client
    (`AidisMcpClient`: connect with retries, executeCommand, typed wrappers)
  * `CommandRouter` — directive routing, the shell safety denylist, and the
    `/aidis_store` handler.

Conventions of the embedding:
  * JavaScript strings are Lean `String`s, indexed by `Nat` positions into the
    character list (the inputs of interest are ASCII, where JS UTF-16 indices
    and character indices agree).
  * JSON numbers are `Rat`.
  * `Date` timestamps are opaque `Nat`s supplied by the caller (explicit clock).
  * Effectful calls (HTTP requests, `Math.random`) are passed in as explicit
    oracle functions; a call that throws is an `Except.error`.
-/

namespace RidgeCode

/-! ## JSON values and `JSON.parse`

`JSON.parse` as used by the extractor. Numbers are rationals; object fields
keep their textual order, duplicate keys resolved last-wins (as in JS).
-/

inductive JsonValue where
  | jnull : JsonValue
  | jbool : Bool → JsonValue
  | jnum : Rat → JsonValue
  | jstr : String → JsonValue
  | jarr : List JsonValue → JsonValue
  | jobj : List (String × JsonValue) → JsonValue

/-- Whitespace accepted between JSON tokens by `JSON.parse`. -/
def jsonWs (c : Char) : Bool :=
  c == ' ' || c == '\t' || c == '\n' || c == '\r'

def skipWs (cs : List Char) : List Char :=
  cs.dropWhile jsonWs

def isDigitChar (c : Char) : Bool :=
  '0' ≤ c && c ≤ '9'

def digitVal (c : Char) : Nat :=
  c.toNat - 48

def hexVal (c : Char) : Option Nat :=
  if isDigitChar c then some (digitVal c)
  else if 'a' ≤ c && c ≤ 'f' then some (c.toNat - 87)
  else if 'A' ≤ c && c ≤ 'F' then some (c.toNat - 55)
  else none

/-- Parse the body of a JSON string literal (the opening quote already
consumed), returning the decoded characters and the rest of the input. -/
def parseStringBody : List Char → Option (List Char × List Char)
  | [] => none
  | '"' :: rest => some ([], rest)
  | '\\' :: e :: rest =>
    match e with
    | '"' => (parseStringBody rest).map (fun p => ('"' :: p.1, p.2))
    | '\\' => (parseStringBody rest).map (fun p => ('\\' :: p.1, p.2))
    | '/' => (parseStringBody rest).map (fun p => ('/' :: p.1, p.2))
    | 'b' => (parseStringBody rest).map (fun p => (Char.ofNat 8 :: p.1, p.2))
    | 'f' => (parseStringBody rest).map (fun p => (Char.ofNat 12 :: p.1, p.2))
    | 'n' => (parseStringBody rest).map (fun p => ('\n' :: p.1, p.2))
    | 'r' => (parseStringBody rest).map (fun p => (Char.ofNat 13 :: p.1, p.2))
    | 't' => (parseStringBody rest).map (fun p => ('\t' :: p.1, p.2))
    | 'u' =>
      match rest with
      | h1 :: h2 :: h3 :: h4 :: rest' =>
        match hexVal h1, hexVal h2, hexVal h3, hexVal h4 with
        | some a, some b, some c, some d =>
          (parseStringBody rest').map
            (fun p => (Char.ofNat (((a * 16 + b) * 16 + c) * 16 + d) :: p.1, p.2))
        | _, _, _, _ => none
      | _ => none
    | _ => none
  | c :: rest =>
    if c.toNat < 32 then none
    else (parseStringBody rest).map (fun p => (c :: p.1, p.2))

/-- Maximal run of decimal digits at the head of the input, with its value. -/
def takeDigits (cs : List Char) : List Char × List Char :=
  (cs.takeWhile isDigitChar, cs.dropWhile isDigitChar)

def digitsToNat (ds : List Char) : Nat :=
  ds.foldl (fun acc c => acc * 10 + digitVal c) 0

/-- JSON number grammar: `-? (0 | [1-9][0-9]*) (. [0-9]+)? ([eE] [+-]? [0-9]+)?`. -/
def parseNumber (cs : List Char) : Option (Rat × List Char) := do
  let (neg, cs) := match cs with
    | '-' :: rest => (true, rest)
    | _ => (false, cs)
  let (intDs, cs) ← match cs with
    | '0' :: rest => some (['0'], rest)
    | c :: _ =>
      if isDigitChar c && c != '0' then
        let (ds, rest) := takeDigits cs
        some (ds, rest)
      else none
    | [] => none
  let (fracDs, cs) ← match cs with
    | '.' :: rest =>
      let (ds, rest') := takeDigits rest
      if ds.isEmpty then none else some (ds, rest')
    | _ => some ([], cs)
  let (expNeg, expDs, cs) ← match cs with
    | c :: rest =>
      if c == 'e' || c == 'E' then
        let (en, rest') := match rest with
          | '+' :: r => (false, r)
          | '-' :: r => (true, r)
          | _ => (false, rest)
        let (ds, rest'') := takeDigits rest'
        if ds.isEmpty then none else some (en, ds, rest'')
      else some (false, ([] : List Char), cs)
    | [] => some (false, ([] : List Char), cs)
  let mant : Rat := (digitsToNat (intDs ++ fracDs) : Rat) / ((10 : Rat) ^ fracDs.length)
  let e : Nat := digitsToNat expDs
  let scaled : Rat := if expNeg then mant / (10 : Rat) ^ e else mant * (10 : Rat) ^ e
  some ((if neg then -scaled else scaled), cs)

mutual

/-- Recursive-descent JSON value parser; `fuel` is an embedding artifact
bounding nesting depth (instantiated with the input length, which always
suffices since every nested value consumes at least one character). -/
def parseValue : Nat → List Char → Option (JsonValue × List Char)
  | 0, _ => none
  | fuel + 1, cs =>
    match skipWs cs with
    | '\x7b' :: rest =>
      match skipWs rest with
      | '\x7d' :: rest' => some (.jobj [], rest')
      | _ => (parseMembers fuel rest).map (fun p => (.jobj p.1, p.2))
    | '[' :: rest =>
      match skipWs rest with
      | ']' :: rest' => some (.jarr [], rest')
      | _ => (parseElements fuel rest).map (fun p => (.jarr p.1, p.2))
    | '"' :: rest =>
      (parseStringBody rest).map (fun p => (.jstr (String.mk p.1), p.2))
    | 't' :: 'r' :: 'u' :: 'e' :: rest => some (.jbool true, rest)
    | 'f' :: 'a' :: 'l' :: 's' :: 'e' :: rest => some (.jbool false, rest)
    | 'n' :: 'u' :: 'l' :: 'l' :: rest => some (.jnull, rest)
    | cs' =>
      match cs' with
      | c :: _ =>
        if c == '-' || isDigitChar c then
          (parseNumber cs').map (fun p => (.jnum p.1, p.2))
        else none
      | [] => none

/-- Members of a JSON object, after the opening `{` (nonempty case). -/
def parseMembers : Nat → List Char → Option (List (String × JsonValue) × List Char)
  | 0, _ => none
  | fuel + 1, cs =>
    match skipWs cs with
    | '"' :: rest => do
      let (keyChars, rest') ← parseStringBody rest
      match skipWs rest' with
      | ':' :: rest'' => do
        let (v, rest3) ← parseValue fuel rest''
        match skipWs rest3 with
        | ',' :: rest4 =>
          (parseMembers fuel rest4).map
            (fun p => ((String.mk keyChars, v) :: p.1, p.2))
        | '\x7d' :: rest4 => some ([(String.mk keyChars, v)], rest4)
        | _ => none
      | _ => none
    | _ => none

/-- Elements of a JSON array, after the opening `[` (nonempty case). -/
def parseElements : Nat → List Char → Option (List JsonValue × List Char)
  | 0, _ => none
  | fuel + 1, cs => do
    let (v, rest) ← parseValue fuel cs
    match skipWs rest with
    | ',' :: rest' => (parseElements fuel rest').map (fun p => (v :: p.1, p.2))
    | ']' :: rest' => some ([v], rest')
    | _ => none

end

/-- Model of `JSON.parse`: parse one value and require only whitespace to remain;
`none` models a thrown `SyntaxError`. -/
def jsonParse (s : String) : Option JsonValue :=
  match parseValue (s.data.length + 1) s.data with
  | some (v, rest) => if (skipWs rest).isEmpty then some v else none
  | none => none

/-- Last-wins field lookup on a parsed JSON object's field list (JS object
semantics for duplicate literal keys). -/
def objLookup (fields : List (String × JsonValue)) (k : String) : Option JsonValue :=
  ((fields.filter (fun p => p.1 == k)).map (fun p => p.2)).getLast?

/-- Field access `payload.k` on a JSON value (`undefined` is `none`). -/
def objGet (v : JsonValue) (k : String) : Option JsonValue :=
  match v with
  | .jobj fields => objLookup fields k
  | _ => none

/-! ## Command schemas (`ContextStoreSchema`, `TaskCreateSchema`)

Zod validation from `AidisResponseParser.ts`: `schema.parse(payload)` succeeds
or throws; we model the boolean outcome. Unknown keys are stripped (accepted);
an optional field present with the wrong type (including `null`) fails.
-/

def isJsonStr : JsonValue → Bool
  | .jstr _ => true
  | _ => false

/-- Check `z.string().min(1)` on a required field. -/
def reqNonEmptyStr (v : Option JsonValue) : Bool :=
  match v with
  | some (.jstr s) => !s.data.isEmpty
  | _ => false

/-- Check `z.string().optional()` — absent ok, present must be a string. -/
def optStr (v : Option JsonValue) : Bool :=
  match v with
  | none => true
  | some (.jstr _) => true
  | _ => false

/-- Check `z.array(z.string()).optional()`. -/
def optStrArray (v : Option JsonValue) : Bool :=
  match v with
  | none => true
  | some (.jarr xs) => xs.all isJsonStr
  | _ => false

/-- Check `z.record(z.string(), z.any()).optional()` — absent ok, else any object. -/
def optRecord (v : Option JsonValue) : Bool :=
  match v with
  | none => true
  | some (.jobj _) => true
  | _ => false

/-- Enumerated string field: required when `req`, otherwise optional
(zod `.default(...)` accepts an absent field). -/
def enumStr (allowed : List String) (req : Bool) (v : Option JsonValue) : Bool :=
  match v with
  | none => !req
  | some (.jstr s) => allowed.contains s
  | _ => false

def contextTypes : List String :=
  ["code", "decision", "error", "discussion", "planning", "completion", "milestone"]

def taskTypes : List String :=
  ["feature", "bugfix", "refactor", "test", "review", "documentation", "general"]

def taskPriorities : List String :=
  ["low", "medium", "high", "urgent"]

/-- Whether `ContextStoreSchema.parse(payload)` succeeds. -/
def validateContextStore (payload : JsonValue) : Bool :=
  match payload with
  | .jobj fields =>
    reqNonEmptyStr (objLookup fields "content") &&
    enumStr contextTypes true (objLookup fields "type") &&
    optStrArray (objLookup fields "tags") &&
    (match objLookup fields "relevanceScore" with
     | none => true
     | some (.jnum q) => decide ((0 : Rat) ≤ q ∧ q ≤ 10)
     | _ => false) &&
    optStr (objLookup fields "sessionId") &&
    optStr (objLookup fields "projectId") &&
    optRecord (objLookup fields "metadata")
  | _ => false

/-- Whether `TaskCreateSchema.parse(payload)` succeeds. -/
def validateTaskCreate (payload : JsonValue) : Bool :=
  match payload with
  | .jobj fields =>
    reqNonEmptyStr (objLookup fields "title") &&
    optStr (objLookup fields "description") &&
    enumStr taskTypes false (objLookup fields "type") &&
    enumStr taskPriorities false (objLookup fields "priority") &&
    optStr (objLookup fields "assignedTo") &&
    optStrArray (objLookup fields "dependencies") &&
    optStrArray (objLookup fields "tags") &&
    optStr (objLookup fields "projectId") &&
    optRecord (objLookup fields "metadata")
  | _ => false

/-- Model of `AidisResponseParser.validateCommandPayload`: registry lookup in
`COMMAND_SCHEMAS` (unknown command name → `false`), then schema parse. -/
def validateCommandPayload (command : String) (payload : JsonValue) : Bool :=
  if command == "context_store" then validateContextStore payload
  else if command == "task_create" then validateTaskCreate payload
  else false

/-! ## The extraction pattern `/mcp__aidis__(\w+)\s+(\{.*\})/g`

JS regex semantics specialised to this fixed pattern: scan start positions
left to right from `lastIndex`; at a start, the literal, then a maximal
nonempty `\w+` run, a maximal nonempty `\s+` run, a literal `{`, and a greedy
`.*` (not crossing a line break) ending at the last `}` on that line.
The character classes of adjacent pieces are disjoint, so maximal-munch is the
unique backtracking outcome.
-/

def wordChar (c : Char) : Bool :=
  c.isAlphanum || c == '_'

/-- JS `\s` restricted to the ASCII whitespace characters. -/
def jsSpace (c : Char) : Bool :=
  c == ' ' || c == '\t' || c == '\n' || c == '\r' ||
  c == '\x0b' || c == '\x0c'

/-- JS `.` matches anything except a line terminator. -/
def dotChar (c : Char) : Bool :=
  !(c == '\n' || c == '\r')

def litAt (cs : List Char) (i : Nat) (lit : List Char) : Bool :=
  (cs.drop i).take lit.length == lit

/-- Index of the last `}` in a segment, if any. -/
def lastCloseBrace : List Char → Option Nat
  | [] => none
  | c :: rest =>
    match lastCloseBrace rest with
    | some k => some (k + 1)
    | none => if c == '\x7d' then some 0 else none

/-- Attempt the pattern anchored at position `i`; on success returns the two
capture groups (command name, JSON text) and the end position of the match. -/
def matchAt (cs : List Char) (i : Nat) : Option (String × String × Nat) :=
  if litAt cs i ("mcp__aidis__".data) then
    let p0 := i + 12
    let nameRun := (cs.drop p0).takeWhile wordChar
    if nameRun.isEmpty then none else
    let p1 := p0 + nameRun.length
    let wsRun := (cs.drop p1).takeWhile jsSpace
    if wsRun.isEmpty then none else
    let p2 := p1 + wsRun.length
    match cs.get? p2 with
    | some c =>
      if c == '\x7b' then
        let lineSeg := (cs.drop (p2 + 1)).takeWhile dotChar
        match lastCloseBrace lineSeg with
        | some k =>
          let e := p2 + 1 + k + 1
          some (String.mk nameRun, String.mk ((cs.drop p2).take (e - p2)), e)
        | none => none
      else none
    | none => none
  else none

/-- Leftmost match at a start position ≥ `i`; `fuel` bounds the scan and is
always instantiated so that every position up to the end is tried. -/
def scanFrom (cs : List Char) : Nat → Nat → Option (String × String × Nat)
  | 0, _ => none
  | fuel + 1, i =>
    match matchAt cs i with
    | some r => some r
    | none => scanFrom cs fuel (i + 1)

/-- Model of `AIDIS_PATTERN.exec(s)` with the pattern's `lastIndex` at `li`. -/
def execPattern (li : Nat) (s : String) : Option (String × String × Nat) :=
  scanFrom s.data (s.data.length + 1 - li) li

structure ParsedAidisCommand where
  command : String
  payload : JsonValue

/-- Loop body of `extractCommands`: destructure the match, `JSON.parse` the
payload (failure → warn and continue), validate, and keep the command.  The
raw parsed payload is pushed (schema defaults are not applied). -/
def processMatch (name payloadText : String) (acc : List ParsedAidisCommand) :
    List ParsedAidisCommand :=
  if name == "" then acc
  else
    match jsonParse payloadText with
    | none => acc
    | some payload =>
      if validateCommandPayload name payload then acc ++ [⟨name, payload⟩] else acc

/-- The `while ((match = AIDIS_PATTERN.exec(response)) !== null)` loop.
On a failed `exec`, JS resets the global pattern's `lastIndex` to 0, which is
how the loop exits.  `fuel` is an embedding artifact; `s.length + 2` always
suffices because every match strictly advances `lastIndex` (see
`extractLoop_snd_eq_zero`). -/
def extractLoop (s : String) : Nat → Nat → List ParsedAidisCommand →
    List ParsedAidisCommand × Nat
  | 0, li, acc => (acc, li)
  | fuel + 1, li, acc =>
    match execPattern li s with
    | none => (acc, 0)
    | some (name, payloadText, e) =>
      extractLoop s fuel e (processMatch name payloadText acc)

/-- Model of `AidisResponseParser.extractCommands`, with the pattern's `lastIndex`
threaded explicitly: the incoming position `li` is the shared global regex
state and the returned `Nat` is its value when the call returns.  The method
resets `lastIndex` to 0 before scanning, so the result ignores `li`. -/
def extractCommandsSt (li : Nat) (s : String) : List ParsedAidisCommand × Nat :=
  extractLoop s (s.data.length + 2) 0 []

/-- Model of `AidisResponseParser.extractCommands` (value part). -/
def extractCommands (s : String) : List ParsedAidisCommand :=
  (extractCommandsSt 0 s).1

/-- Model of `AidisResponseParser.validateCommandString`, with `lastIndex` threaded as
in `extractCommandsSt`: one `exec` from the current position, then an explicit
reset of `lastIndex` to 0 before any return. -/
def validateCommandStringSt (li : Nat) (s : String) :
    Option ParsedAidisCommand × Nat :=
  match execPattern li s with
  | none => (none, 0)
  | some (name, payloadText, _) =>
    if name == "" then (none, 0)
    else
      match jsonParse payloadText with
      | none => (none, 0)
      | some payload =>
        if validateCommandPayload name payload then (some ⟨name, payload⟩, 0)
        else (none, 0)

/-! ## `ResponseBuffer` (`src/response/ResponseBuffer.ts`)

The buffer is the `responses` array, oldest first.  Timestamps (`new Date()`)
are opaque `Nat`s supplied by the caller.  The spin-wait token "mutex" has no
observable effect in the single-threaded model and is not represented.
-/

structure ResponseMetadata where
  model : String
  tokenCount : Nat
  responseTime : Nat
deriving DecidableEq

structure BufferedResponse where
  content : String
  timestamp : Nat
  metadata : ResponseMetadata
deriving DecidableEq

def MAX_RESPONSES : Nat := 50

def defaultMetadata : ResponseMetadata :=
  { model := "unknown", tokenCount := 0, responseTime := 0 }

/-- The `BufferedResponse` built by `addResponse` (metadata cloned, defaulted
when not provided). -/
def mkResponse (content : String) (metadata : Option ResponseMetadata)
    (timestamp : Nat) : BufferedResponse :=
  { content := content, timestamp := timestamp,
    metadata := metadata.getD defaultMetadata }

/-- Model of `ResponseBuffer.addResponse`: push, then `shift()` the oldest entry if the
length exceeds `MAX_RESPONSES`.  Total — it never fails. -/
def addResponse (buffer : List BufferedResponse) (content : String)
    (metadata : Option ResponseMetadata) (timestamp : Nat) :
    List BufferedResponse :=
  let buffer' := buffer ++ [mkResponse content metadata timestamp]
  if MAX_RESPONSES < buffer'.length then buffer'.tail else buffer'

/-- A sequence of `addResponse` calls on a buffer. -/
def addAll (buffer : List BufferedResponse)
    (items : List (String × Option ResponseMetadata × Nat)) :
    List BufferedResponse :=
  items.foldl (fun b it => addResponse b it.1 it.2.1 it.2.2) buffer

/-- The per-entry clone performed on reads:
`{ ...response, metadata: { ...response.metadata } }`. -/
def cloneResponse (r : BufferedResponse) : BufferedResponse :=
  { content := r.content, timestamp := r.timestamp,
    metadata := { model := r.metadata.model, tokenCount := r.metadata.tokenCount,
                  responseTime := r.metadata.responseTime } }

/-- Model of `ResponseBuffer.getRecentResponses(count)`; `count` is a JS number, so an
`Int` here to represent negative arguments. -/
def getRecentResponses (buffer : List BufferedResponse) (count : Int) :
    List BufferedResponse :=
  if count ≤ 0 then []
  else
    let requestedCount := min count.toNat buffer.length
    (buffer.drop (buffer.length - requestedCount)).map cloneResponse

/-! ## `AidisMcpClient` (HTTP client)

`connect` retry loop and `executeCommand`.  Connection attempts and HTTP
requests are oracles: `attemptOk i` tells whether the `i`-th attempt (0-based)
succeeds, `jitter i` is the `Math.random()` drawn after the `i`-th failure,
and `http` maps a request to what the wire produced.  `executeCommand` also
returns the list of HTTP requests it issued, so "zero network attempts" is a
statement about that list.
-/

structure RetryCfg where
  maxRetries : Nat
  baseDelay : Nat
  maxDelay : Nat

/-- The body of `connect`'s `while (retryCount <= maxRetries)` loop, returning
the number of attempts made and the sleeps performed (each
`delay + jitter`).  `fuel` is an embedding artifact: `maxRetries + 1 - retryCount`
iterations always suffice because `retryCount` strictly increases. -/
def connectLoop (attemptOk : Nat → Bool) (jitter : Nat → Rat)
    (base maxD maxRetries : Nat) : Nat → Nat → Except String (Nat × List Rat)
  | 0, _ => .error "connect loop fuel exhausted"
  | fuel + 1, retryCount =>
    if attemptOk retryCount then
      .ok (retryCount + 1, [])
    else
      let rc := retryCount + 1
      if maxRetries < rc then
        .error ("Failed to connect after " ++ toString maxRetries ++ " attempts")
      else
        let delay : Rat := min ((base : Rat) * 2 ^ (rc - 1)) (maxD : Rat)
        let jit : Rat := jitter (rc - 1) * (1 / 10) * delay
        match connectLoop attemptOk jitter base maxD maxRetries fuel rc with
        | .ok (n, sleeps) => .ok (n, (delay + jit) :: sleeps)
        | .error e => .error e

/-- Model of `AidisMcpClient.connect()`; the constructor defaults `retryConfig` to
`{ maxRetries: 3, baseDelay: 1000, maxDelay: 10000 }` and `connect` re-applies
the same defaults with `??`. -/
def connect (cfg : Option RetryCfg) (attemptOk : Nat → Bool)
    (jitter : Nat → Rat) : Except String (Nat × List Rat) :=
  let maxRetries := (cfg.map RetryCfg.maxRetries).getD 3
  let base := (cfg.map RetryCfg.baseDelay).getD 1000
  let maxD := (cfg.map RetryCfg.maxDelay).getD 10000
  connectLoop attemptOk jitter base maxD maxRetries (maxRetries + 1) 0

/-- What one HTTP `POST /mcp/tools/<command>` produced, from the caller's
point of view: a truthy-`success` reply, a falsy-`success` reply, an axios
transport error, or a thrown exception. -/
inductive ApiOutcome where
  | success (result : JsonValue)
  | apiFailure (error : Option String)
  | axiosError (respError : Option String) (message : String)
  | thrownError (message : String)
  | thrownValue (stringified : String)

/-- The `McpResponse` result shape (timestamp elided). -/
structure McpResponse where
  success : Bool
  data : Option JsonValue
  error : Option String

structure AidisClient where
  connected : Bool
  http : String → List (String × JsonValue) → ApiOutcome

def ridgeProjectId : String := "51040d59-dc3a-4f1b-a17a-cf707cd35937"

/-- JS `a || b` on an optional string: `undefined` and `""` are falsy. -/
def jsOrDefault (v : Option String) (d : String) : String :=
  match v with
  | some s => if s == "" then d else s
  | none => d

/-- JS object-spread key update: `{ ...o, k: v }`. -/
def objSet (o : List (String × JsonValue)) (k : String) (v : JsonValue) :
    List (String × JsonValue) :=
  if o.any (fun p => p.1 == k) then
    o.map (fun p => if p.1 == k then (k, v) else p)
  else o ++ [(k, v)]

/-- JS object-spread merge: `{ ...a, ...b }`. -/
def objMerge (a b : List (String × JsonValue)) : List (String × JsonValue) :=
  b.foldl (fun acc p => objSet acc p.1 p.2) a

/-- An HTTP request: the command name in the URL and the `arguments` body. -/
def HttpRequest : Type := String × List (String × JsonValue)

/-- How `executeCommand` turns what the wire produced into an `McpResponse`:
a truthy `success` reply keeps `result` as `data`; everything else becomes
`{ success: false, error }`, never a propagated exception. -/
def normalizeOutcome : ApiOutcome → McpResponse
  | .success result => ⟨true, some result, none⟩
  | .apiFailure err => ⟨false, none, some (jsOrDefault err "Unknown API error")⟩
  | .axiosError respErr msg =>
    ⟨false, none, some ("HTTP Error: " ++ jsOrDefault respErr msg)⟩
  | .thrownError msg => ⟨false, none, some msg⟩
  | .thrownValue v => ⟨false, none, some v⟩

/-- Model of `AidisMcpClient.executeCommand`: throws (`.error`) when not connected,
otherwise injects `projectId` into the payload, issues the request, and
normalizes every reply or failure into an `McpResponse`.  The second
component lists the HTTP requests issued by the call. -/
def executeCommand (c : AidisClient) (command : String)
    (payload : List (String × JsonValue)) :
    Except String McpResponse × List HttpRequest :=
  if !c.connected then
    (.error "Client not connected. Call connect() first.", [])
  else
    let enhanced := objSet payload "projectId" (.jstr ridgeProjectId)
    (.ok (normalizeOutcome (c.http command enhanced)), [(command, enhanced)])

/-- Model of `AidisMcpClient.storeContext`: typed wrapper building
`{ content, type, ...options, projectId }` and calling `executeCommand` with
the fixed operation name `context_store`. -/
def storeContext (c : AidisClient) (content : String) (typ : String)
    (options : List (String × JsonValue)) :
    Except String McpResponse × List HttpRequest :=
  executeCommand c "context_store"
    (objSet
      (objMerge [("content", .jstr content), ("type", .jstr typ)] options)
      "projectId" (.jstr ridgeProjectId))

/-- Model of `AidisMcpClient.createTask`: typed wrapper building
`{ title, ...options, projectId }` and calling `executeCommand` with the
fixed operation name `task_create`. -/
def createTask (c : AidisClient) (title : String)
    (options : List (String × JsonValue)) :
    Except String McpResponse × List HttpRequest :=
  executeCommand c "task_create"
    (objSet (objMerge [("title", .jstr title)] options)
      "projectId" (.jstr ridgeProjectId))

/-! ## `CommandRouter`

`routeCommand` classification, the shell safety denylist, and the
`/aidis_store` handler.  `handleShellCommand` is modelled up to the point a
child process would be spawned: the decision (`ShellAction`) fully determines
whether any process is ever created.
-/

def BLOCKED_COMMANDS : List String :=
  ["rm -rf", "sudo rm", "mkfs", "dd if=", "shred", "wipefs", "fdisk",
   "parted", "mkswap", "systemctl poweroff", "systemctl halt", "shutdown",
   "reboot", "init 0", "init 6", "halt", "poweroff"]

/-- ASCII case folding; the denylist and the commands of interest are ASCII,
where JS `toLowerCase()` agrees with this. -/
def asciiLower (c : Char) : Char :=
  if 'A' ≤ c && c ≤ 'Z' then Char.ofNat (c.toNat + 32) else c

def lowerStr (s : String) : String :=
  String.mk (s.data.map asciiLower)

/-- Does `needle` occur as a contiguous run of `cs` (at any position)? -/
def containsSub (needle : List Char) : List Char → Bool
  | [] => needle.isEmpty
  | c :: rest => (c :: rest).take needle.length == needle || containsSub needle rest

/-- JS `String.prototype.includes`: substring containment. -/
def strIncludes (haystack needle : String) : Bool :=
  containsSub needle.data haystack.data

/-- JS `String.prototype.trim()` (ASCII whitespace). -/
def jsTrim (s : String) : String :=
  String.mk ((((s.data.dropWhile jsSpace).reverse).dropWhile jsSpace).reverse)

def startsWithLit (s lit : String) : Bool :=
  s.data.take lit.data.length == lit.data

/-- Which handler `routeCommand` gives the (trimmed) input to. -/
inductive Route where
  | aidis (input : String)
  | help
  | shell (input : String)
deriving DecidableEq

/-- Model of `CommandRouter.routeCommand`: trim, then dispatch on the `/aidis_`
namespace, the exact `/help` directive, or shell passthrough. -/
def routeCommand (input : String) : Route :=
  let trimmedInput := jsTrim input
  if startsWithLit trimmedInput "/aidis_" then .aidis trimmedInput
  else if trimmedInput == "/help" then .help
  else .shell trimmedInput

/-- The observable decision of `handleShellCommand` before any process
exists: reject empty input, reject on the first matching denylist entry, or
spawn the trimmed command through the shell. -/
inductive ShellAction where
  | emptyInput
  | blockedBySafety (blockedCmd : String)
  | spawnProcess (command : String)
deriving DecidableEq

/-- Model of `CommandRouter.handleShellCommand`, up to the spawn: the empty check, then
the case-insensitive denylist-substring scan (first match wins and returns a
safety error — the spawn is unreachable from that branch). -/
def shellDecision (command : String) : ShellAction :=
  if jsTrim command == "" then .emptyInput
  else
    match BLOCKED_COMMANDS.find?
        (fun blockedCmd => strIncludes (lowerStr command) (lowerStr blockedCmd)) with
    | some blockedCmd => .blockedBySafety blockedCmd
    | none => .spawnProcess (jsTrim command)

/-- The `CommandResult` record (timestamp elided). -/
structure CommandResult where
  success : Bool
  output : Option String
  error : Option String
  commandType : String

/-- The runtime value of a TS `as string` cast on a payload field, for the
payloads that reach it (schema-validated, so the field is a JSON string).
Absent or non-string fields — unreachable on validated payloads — map to `""`. -/
def strOfField (p : JsonValue) (k : String) : String :=
  match objGet p k with
  | some (.jstr s) => s
  | _ => ""

/-- Template `${payload.k}` interpolation for a field that validation guarantees to be
a string (`undefined` prints as "undefined"). -/
def displayField (p : JsonValue) (k : String) : String :=
  match objGet p k with
  | some (.jstr s) => s
  | some _ => "[object]"
  | none => "undefined"

/-- An optional field passed through to an options object and then serialized:
present keys survive, absent ones disappear (`undefined` is dropped by JSON
serialization). -/
def optField (p : JsonValue) (k : String) : List (String × JsonValue) :=
  match objGet p k with
  | some v => [(k, v)]
  | none => []

def substring50 (s : String) : String :=
  String.mk (s.data.take 50)

/-- Template `${result.error}` — `undefined` interpolates as "undefined". -/
def errDisplay (e : Option String) : String :=
  e.getD "undefined"

/-- The options object the `/aidis_store` handler passes to `storeContext`
(present payload fields survive JSON serialization, absent ones drop). -/
def ctxOptions (p : JsonValue) : List (String × JsonValue) :=
  optField p "tags" ++ optField p "relevanceScore" ++
  optField p "sessionId" ++ optField p "metadata"

/-- The options object the `/aidis_store` handler passes to `createTask`. -/
def taskOptions (p : JsonValue) : List (String × JsonValue) :=
  optField p "description" ++ optField p "type" ++ optField p "priority" ++
  optField p "assignedTo" ++ optField p "dependencies" ++ optField p "tags" ++
  optField p "metadata"

/-- Value of `(payload.title as string) || 'Untitled Task'`. -/
def taskTitle (p : JsonValue) : String :=
  let t := strOfField p "title"
  if t == "" then "Untitled Task" else t

/-- Does this extracted command match the flag's command type?  (The two
guards of the `/aidis_store` execution loop.) -/
def isMatch (flag : String) (cmd : ParsedAidisCommand) : Bool :=
  (flag == "--context" && cmd.command == "context_store") ||
  (flag == "--task" && cmd.command == "task_create")

/-- The remote call the `/aidis_store` loop makes for a matching command
(`storeContext` for `--context`, `createTask` for `--task`). -/
def execFor (client : AidisClient) (flag : String) (cmd : ParsedAidisCommand) :
    Except String McpResponse :=
  if flag == "--context" then
    (storeContext client (strOfField cmd.payload "content")
      (strOfField cmd.payload "type") (ctxOptions cmd.payload)).1
  else
    (createTask client (taskTitle cmd.payload) (taskOptions cmd.payload)).1

/-- The per-item line pushed on a successful execution. -/
def successLine (flag : String) (cmd : ParsedAidisCommand) : String :=
  if flag == "--context" then
    "Stored context: " ++ substring50 (strOfField cmd.payload "content") ++ "..."
  else
    "Created task: " ++ displayField cmd.payload "title"

/-- The per-item line pushed on a failed execution. -/
def failureLine (flag : String) (cmd : ParsedAidisCommand)
    (err : Option String) : String :=
  (if flag == "--context" then "Failed to store context: "
   else "Failed to create task: ") ++ errDisplay err

/-- One iteration of the `/aidis_store` execution loop: state is
`(executedCommands, results)`; a command of the non-matching type is skipped;
a thrown client error (`.error`) aborts the loop into the handler's `catch`. -/
def storeStep (client : AidisClient) (flag : String)
    (state : Nat × List String) (cmd : ParsedAidisCommand) :
    Except String (Nat × List String) :=
  if isMatch flag cmd then
    match execFor client flag cmd with
    | .error e => .error e
    | .ok result =>
      if result.success then
        .ok (state.1 + 1, state.2 ++ [successLine flag cmd])
      else
        .ok (state.1, state.2 ++ [failureLine flag cmd result.error])
  else
    .ok state

/-- Model of `CommandRouter.handleAidisStore(args)`: flag check, pull the last 5
buffered responses, extract commands from each (buffer order), execute the
matching ones, and aggregate. -/
def handleAidisStore (client : AidisClient) (buffer : List BufferedResponse)
    (args : List String) : CommandResult :=
  match args with
  | [] =>
    { success := false, output := none,
      error := some "aidis_store requires --context or --task flag",
      commandType := "aidis" }
  | flag :: _ =>
    let recentResponses := getRecentResponses buffer 5
    if recentResponses.isEmpty then
      { success := false, output := none,
        error := some "No responses found in buffer to store",
        commandType := "aidis" }
    else
      let parsedCommands :=
        recentResponses.foldl (fun acc r => acc ++ extractCommands r.content) []
      if parsedCommands.isEmpty then
        { success := false, output := none,
          error := some "No AIDIS commands found in recent responses",
          commandType := "aidis" }
      else
        match parsedCommands.foldlM (storeStep client flag) (0, []) with
        | .error e =>
          { success := false, output := none, error := some e,
            commandType := "aidis" }
        | .ok (executed, results) =>
          if executed == 0 then
            { success := false, output := none,
              error := some ("No " ++
                (if flag == "--context" then "context_store" else "task_create") ++
                " commands found in recent responses"),
              commandType := "aidis" }
          else
            { success := true,
              output := some ("Executed " ++ toString executed ++ " commands:\n" ++
                String.intercalate "\n" results),
              error := none, commandType := "aidis" }

/-! ## Helper lemmas -/

lemma addAll_eq (items : List (String × Option ResponseMetadata × Nat)) :
    ∀ (buffer : List BufferedResponse), buffer.length ≤ MAX_RESPONSES →
    addAll buffer items =
      (buffer ++ items.map (fun it => mkResponse it.1 it.2.1 it.2.2)).drop
        (buffer.length + items.length - MAX_RESPONSES) := by
  induction items with
  | nil =>
    intro buffer h
    have h0 : buffer.length - MAX_RESPONSES = 0 := by omega
    simp [addAll, h0]
  | cons it rest ih =>
    intro buffer h
    have hstep : addAll buffer (it :: rest) =
        addAll (addResponse buffer it.1 it.2.1 it.2.2) rest := by
      simp [addAll]
    rw [hstep]
    by_cases hlt : buffer.length < MAX_RESPONSES
    · have hc : ¬ MAX_RESPONSES <
          (buffer ++ [mkResponse it.1 it.2.1 it.2.2]).length := by
        simp only [List.length_append, List.length_cons, List.length_nil]
        omega
      have hadd : addResponse buffer it.1 it.2.1 it.2.2 =
          buffer ++ [mkResponse it.1 it.2.1 it.2.2] := by
        simp only [addResponse, if_neg hc]
      rw [hadd,
        ih _ (by simp only [List.length_append, List.length_cons, List.length_nil]; omega)]
      have harr : (buffer ++ [mkResponse it.1 it.2.1 it.2.2]).length + rest.length -
          MAX_RESPONSES =
          buffer.length + (it :: rest).length - MAX_RESPONSES := by
        simp only [List.length_append, List.length_cons, List.length_nil]
        omega
      rw [harr]
      congr 1
      simp [List.append_assoc]
    · have h50 : buffer.length = MAX_RESPONSES := by omega
      obtain ⟨b, bt, rfl⟩ : ∃ b bt, buffer = b :: bt := by
        cases buffer with
        | nil => simp [MAX_RESPONSES] at h50
        | cons b bt => exact ⟨b, bt, rfl⟩
      have hbt : bt.length + 1 = MAX_RESPONSES := by
        simpa using h50
      have hc : MAX_RESPONSES <
          ((b :: bt) ++ [mkResponse it.1 it.2.1 it.2.2]).length := by
        simp only [List.length_append, List.length_cons, List.length_nil]
        omega
      have hadd : addResponse (b :: bt) it.1 it.2.1 it.2.2 =
          bt ++ [mkResponse it.1 it.2.1 it.2.2] := by
        have hcond : MAX_RESPONSES <
            (b :: (bt ++ [mkResponse it.1 it.2.1 it.2.2])).length := by
          simpa using hc
        simp only [addResponse, List.cons_append, List.tail_cons]
        rw [if_pos hcond]
      rw [hadd,
        ih _ (by simp only [List.length_append, List.length_cons, List.length_nil]; omega)]
      have hlen : (bt ++ [mkResponse it.1 it.2.1 it.2.2]).length + rest.length -
          MAX_RESPONSES = rest.length := by
        simp only [List.length_append, List.length_cons, List.length_nil]
        omega
      have hlen' : (b :: bt).length + (it :: rest).length - MAX_RESPONSES =
          rest.length + 1 := by
        simp only [List.length_cons]
        omega
      rw [hlen, hlen']
      simp [List.append_assoc, List.drop_succ_cons]

lemma cloneResponse_eq (r : BufferedResponse) : cloneResponse r = r := by
  cases r with
  | mk content timestamp metadata => cases metadata; rfl

/-- The router's dispatch at the level of observable actions: which handler
runs, and for the shell handler, what it decides before any process exists. -/
inductive DispatchAction where
  | aidisDirective (input : String)
  | helpText
  | shellAct (a : ShellAction)
deriving DecidableEq

/-- Composition of `routeCommand` with the shell handler's decision. -/
def dispatchDecision (input : String) : DispatchAction :=
  match routeCommand input with
  | .aidis t => .aidisDirective t
  | .help => .helpText
  | .shell t => .shellAct (shellDecision t)

lemma containsSub_mem {needle hs : List Char} (h : containsSub needle hs = true) :
    ∀ x ∈ needle, x ∈ hs := by
  induction hs with
  | nil =>
    intro x hx
    simp only [containsSub, List.isEmpty_iff] at h
    subst h
    simp at hx
  | cons c rest ih =>
    intro x hx
    simp only [containsSub, Bool.or_eq_true] at h
    rcases h with h | h
    · have : needle = (c :: rest).take needle.length := by
        have := (beq_iff_eq ..).mp h
        exact this.symm
      rw [this] at hx
      exact List.take_subset _ _ hx
    · exact List.mem_cons_of_mem _ (ih h x hx)

lemma jsTrim_empty_all_space {s : String} (h : jsTrim s = "") :
    ∀ c ∈ s.data, jsSpace c = true := by
  intro c hc
  have hdata : ((((s.data.dropWhile jsSpace).reverse).dropWhile jsSpace).reverse) = [] := by
    have : jsTrim s = String.mk ((((s.data.dropWhile jsSpace).reverse).dropWhile
        jsSpace).reverse) := rfl
    rw [this] at h
    exact congrArg String.data h
  rw [List.reverse_eq_nil_iff] at hdata
  have hrev : ∀ x ∈ (s.data.dropWhile jsSpace).reverse, jsSpace x = true := by
    intro x hx
    exact List.dropWhile_eq_nil_iff.mp hdata x hx
  have hdw : ∀ x ∈ s.data.dropWhile jsSpace, jsSpace x = true := by
    intro x hx
    exact hrev x (List.mem_reverse.mpr hx)
  have hsplit : s.data = s.data.takeWhile jsSpace ++ s.data.dropWhile jsSpace :=
    (List.takeWhile_append_dropWhile ..).symm
  rw [hsplit] at hc
  rcases List.mem_append.mp hc with hc | hc
  · exact List.mem_takeWhile_imp hc
  · exact hdw c hc

lemma jsSpace_asciiLower {c : Char} (h : jsSpace c = true) :
    jsSpace (asciiLower c) = true := by
  simp only [jsSpace, Bool.or_eq_true, beq_iff_eq] at h
  rcases h with ((((h | h) | h) | h) | h) | h <;> subst h <;> decide

lemma blocked_has_nonspace :
    ∀ b ∈ BLOCKED_COMMANDS, (lowerStr b).data.any (fun ch => !(jsSpace ch)) = true := by
  decide

lemma shellDecision_blocked {cmd : String}
    (h : ∃ b ∈ BLOCKED_COMMANDS, strIncludes (lowerStr cmd) (lowerStr b) = true) :
    ∃ b ∈ BLOCKED_COMMANDS, shellDecision cmd = .blockedBySafety b := by
  obtain ⟨b, hb, hinc⟩ := h
  have hne : ¬ (jsTrim cmd == "") = true := by
    intro heq
    have htrim : jsTrim cmd = "" := (beq_iff_eq ..).mp heq
    have hall : ∀ c ∈ cmd.data, jsSpace c = true := jsTrim_empty_all_space htrim
    have hlow : ∀ c ∈ (lowerStr cmd).data, jsSpace c = true := by
      intro c hc
      have : (lowerStr cmd).data = cmd.data.map asciiLower := rfl
      rw [this] at hc
      obtain ⟨c₀, hc₀, rfl⟩ := List.mem_map.mp hc
      exact jsSpace_asciiLower (hall c₀ hc₀)
    obtain ⟨c₀, hc₀mem, hc₀⟩ := List.any_eq_true.mp (blocked_has_nonspace b hb)
    have : c₀ ∈ (lowerStr cmd).data := containsSub_mem hinc c₀ hc₀mem
    have := hlow c₀ this
    simp [this] at hc₀
  have hfind : (BLOCKED_COMMANDS.find?
      (fun blockedCmd => strIncludes (lowerStr cmd) (lowerStr blockedCmd))).isSome := by
    rw [List.find?_isSome]
    exact ⟨b, hb, hinc⟩
  obtain ⟨b', hb'⟩ := Option.isSome_iff_exists.mp hfind
  refine ⟨b', List.mem_of_find?_eq_some hb', ?_⟩
  simp only [shellDecision]
  rw [if_neg hne, hb']

lemma getLast?_all_eq {α : Type _} :
    ∀ {l : List α} {a : α}, l ≠ [] → (∀ x ∈ l, x = a) → l.getLast? = some a := by
  intro l a hne hall
  induction l with
  | nil => exact absurd rfl hne
  | cons x xs ih =>
    cases xs with
    | nil =>
      have : x = a := hall x (List.mem_cons_self ..)
      simp [List.getLast?, this]
    | cons y ys =>
      rw [List.getLast?_cons_cons]
      exact ih (by simp) (fun z hz => hall z (List.mem_cons_of_mem _ hz))

lemma objSet_filter_all (o : List (String × JsonValue)) (k : String) (v : JsonValue) :
    ∀ p ∈ (objSet o k v).filter (fun p => p.1 == k), p = (k, v) := by
  intro p hp
  obtain ⟨hmem, hkey⟩ := List.mem_filter.mp hp
  unfold objSet at hmem
  by_cases hany : o.any (fun q => q.1 == k) = true
  · rw [if_pos hany] at hmem
    obtain ⟨q, hq, hfq⟩ := List.mem_map.mp hmem
    by_cases hqk : (q.1 == k) = true
    · rw [if_pos hqk] at hfq
      exact hfq.symm
    · rw [if_neg hqk] at hfq
      subst hfq
      exact absurd hkey hqk
  · rw [if_neg hany] at hmem
    rcases List.mem_append.mp hmem with hmem | hmem
    · have hanyf : o.any (fun q => q.1 == k) = false := Bool.eq_false_iff.mpr hany
      exact absurd hkey (List.any_eq_false.mp hanyf p hmem)
    · simpa using hmem

lemma objSet_filter_ne_nil (o : List (String × JsonValue)) (k : String) (v : JsonValue) :
    (objSet o k v).filter (fun p => p.1 == k) ≠ [] := by
  intro hcon
  have hnone := List.filter_eq_nil_iff.mp hcon
  unfold objSet at hnone
  by_cases hany : o.any (fun q => q.1 == k)
  · rw [if_pos hany] at hnone
    obtain ⟨q, hq, hqk⟩ := List.any_eq_true.mp hany
    have hmem : (k, v) ∈ o.map (fun p => if p.1 == k then (k, v) else p) :=
      List.mem_map.mpr ⟨q, hq, by rw [if_pos hqk]⟩
    exact hnone _ hmem (by simp)
  · rw [if_neg hany] at hnone
    exact hnone (k, v) (List.mem_append_right _ (by simp)) (by simp)

/-- The `projectId` injected by `executeCommand` is present in every outgoing
payload, whatever the caller supplied (even a conflicting `projectId`). -/
lemma objLookup_objSet (o : List (String × JsonValue)) (k : String) (v : JsonValue) :
    objLookup (objSet o k v) k = some v := by
  unfold objLookup
  apply getLast?_all_eq
  · simp only [ne_eq, List.map_eq_nil_iff]
    exact objSet_filter_ne_nil o k v
  · intro x hx
    obtain ⟨p, hp, rfl⟩ := List.mem_map.mp hx
    rw [objSet_filter_all o k v p hp]

/-- When connected, `executeCommand` is one request with the injected
`projectId`, and the reply normalized by `normalizeOutcome`. -/
lemma executeCommand_connected (c : AidisClient) (hc : c.connected = true)
    (command : String) (payload : List (String × JsonValue)) :
    executeCommand c command payload =
      (.ok (normalizeOutcome
          (c.http command (objSet payload "projectId" (.jstr ridgeProjectId)))),
        [(command, objSet payload "projectId" (.jstr ridgeProjectId))]) := by
  simp [executeCommand, hc]

lemma connectLoop_ok_spec (attemptOk : Nat → Bool) (jitter : Nat → Rat)
    (base maxD maxRetries : Nat) :
    ∀ fuel rc n sleeps, rc ≤ maxRetries →
      connectLoop attemptOk jitter base maxD maxRetries fuel rc = .ok (n, sleeps) →
      rc < n ∧ n ≤ maxRetries + 1 ∧
      sleeps = (List.range (n - 1 - rc)).map (fun i =>
        min ((base : Rat) * 2 ^ (rc + i)) (maxD : Rat) +
        jitter (rc + i) * (1 / 10) *
          min ((base : Rat) * 2 ^ (rc + i)) (maxD : Rat)) := by
  intro fuel
  induction fuel with
  | zero =>
    intro rc n sleeps _ hloop
    simp [connectLoop] at hloop
  | succ fuel ih =>
    intro rc n sleeps hrc hloop
    rw [connectLoop] at hloop
    by_cases hA : attemptOk rc = true
    · rw [if_pos hA] at hloop
      injection hloop with hpair
      obtain ⟨hn, hs⟩ := Prod.ext_iff.mp hpair
      dsimp only at hn hs
      subst hn
      subst hs
      refine ⟨Nat.lt_succ_self rc, by omega, by simp⟩
    · rw [if_neg (by simpa using hA)] at hloop
      by_cases hgt : maxRetries < rc + 1
      · rw [if_pos hgt] at hloop
        exact absurd hloop (by simp)
      · rw [if_neg hgt] at hloop
        cases hrec : connectLoop attemptOk jitter base maxD maxRetries fuel (rc + 1) with
        | error e =>
          rw [hrec] at hloop
          exact absurd hloop (by simp)
        | ok p =>
          obtain ⟨n', sleeps'⟩ := p
          rw [hrec] at hloop
          dsimp only at hloop
          injection hloop with hpair
          obtain ⟨hn, hs⟩ := Prod.ext_iff.mp hpair
          dsimp only at hn hs
          subst hn
          obtain ⟨h1, h2, h3⟩ := ih (rc + 1) n' sleeps' (by omega) hrec
          refine ⟨by omega, h2, ?_⟩
          rw [← hs, h3]
          have hm : n' - 1 - rc = (n' - 1 - (rc + 1)) + 1 := by omega
          rw [hm, List.range_succ_eq_map, List.map_cons, List.map_map]
          have hidx : rc + 1 - 1 = rc := by omega
          rw [hidx]
          congr 1
          apply List.map_congr_left
          intro i hi
          have hplus : rc + 1 + i = rc + (i + 1) := by omega
          rw [hplus]
          rfl

lemma connectLoop_all_fail (attemptOk : Nat → Bool) (jitter : Nat → Rat)
    (base maxD maxRetries : Nat) (hfail : ∀ i, attemptOk i = false) :
    ∀ fuel rc, fuel = maxRetries + 1 - rc → rc ≤ maxRetries →
      connectLoop attemptOk jitter base maxD maxRetries fuel rc =
        .error ("Failed to connect after " ++ toString maxRetries ++ " attempts") := by
  intro fuel
  induction fuel with
  | zero =>
    intro rc hfuel hrc
    omega
  | succ fuel ih =>
    intro rc hfuel hrc
    rw [connectLoop]
    rw [if_neg (by simp [hfail rc])]
    by_cases hgt : maxRetries < rc + 1
    · rw [if_pos hgt]
    · rw [if_neg hgt]
      rw [ih (rc + 1) (by omega) (by omega)]

/-! ## Claim theorems -/

/-- C1: for every sequence of N appends with N > 50 starting from an empty
`ResponseBuffer`, the buffer's size equals the capacity (50) and the retained
entries are exactly the last 50 appended entries in insertion order; moreover
each overflowing append evicts exactly the oldest entry (strict FIFO).
`addResponse` is a total function — append never fails. -/
theorem responseBuffer_fifo (items : List (String × Option ResponseMetadata × Nat))
    (h : MAX_RESPONSES < items.length) :
    (addAll [] items).length = MAX_RESPONSES ∧
    addAll [] items =
      (items.map (fun it => mkResponse it.1 it.2.1 it.2.2)).drop
        (items.length - MAX_RESPONSES) ∧
    (∀ (buf : List BufferedResponse) content md ts, buf.length = MAX_RESPONSES →
      addResponse buf content md ts = buf.tail ++ [mkResponse content md ts]) := by
  have hmain : addAll [] items =
      (items.map (fun it => mkResponse it.1 it.2.1 it.2.2)).drop
        (items.length - MAX_RESPONSES) := by
    have := addAll_eq items [] (by simp)
    simpa using this
  refine ⟨?_, hmain, ?_⟩
  · rw [hmain]
    simp only [List.length_drop, List.length_map]
    omega
  · intro buf content md ts hbuf
    have hgt : MAX_RESPONSES < (buf ++ [mkResponse content md ts]).length := by
      simp only [List.length_append, List.length_singleton]
      omega
    cases buf with
    | nil => simp [MAX_RESPONSES] at hbuf
    | cons b bt =>
      have hcond : MAX_RESPONSES <
          (b :: (bt ++ [mkResponse content md ts])).length := by
        simpa using hgt
      simp only [addResponse, List.cons_append, List.tail_cons]
      rw [if_pos hcond]

def fifoItems : List (String × Option ResponseMetadata × Nat) :=
  List.replicate 51 ("a", none, 0)

theorem responseBuffer_fifo_witness :
    MAX_RESPONSES < fifoItems.length ∧ (addAll [] fifoItems).length = MAX_RESPONSES :=
  ⟨by decide, (responseBuffer_fifo fifoItems (by decide)).1⟩

/-- C8: `getRecentResponses(count)` returns the empty sequence whenever
`count ≤ 0`; otherwise it returns exactly `min(count, size)` most-recent
entries, oldest-first within the returned slice (the last `min(count, size)`
entries of the buffer in buffer order), each passed through the per-entry
clone — which reconstructs the entry, so in the pure model it is the
identity. -/
theorem getRecentResponses_spec (buffer : List BufferedResponse) (count : Int) :
    (count ≤ 0 → getRecentResponses buffer count = []) ∧
    (0 < count → getRecentResponses buffer count =
      ((buffer.reverse.take (min count.toNat buffer.length)).reverse).map
        cloneResponse ∧
      (getRecentResponses buffer count).length = min count.toNat buffer.length) ∧
    (∀ r, cloneResponse r = r) := by
  refine ⟨fun hle => by simp [getRecentResponses, hle], fun hpos => ?_, cloneResponse_eq⟩
  have hnle : ¬ count ≤ 0 := by omega
  have htr : List.take (min count.toNat buffer.length) buffer.reverse =
      (List.drop (buffer.length - min count.toNat buffer.length) buffer).reverse := by
    rw [List.take_reverse]
  constructor
  · simp only [getRecentResponses, hnle, if_false]
    rw [htr, List.reverse_reverse]
  · simp only [getRecentResponses, hnle, if_false]
    simp only [List.length_map, List.length_drop]
    omega

def recentBuf3 : List BufferedResponse :=
  [⟨"a", 1, defaultMetadata⟩, ⟨"b", 2, defaultMetadata⟩, ⟨"c", 3, defaultMetadata⟩]

theorem getRecentResponses_spec_witness :
    (0 : Int) < 2 ∧ getRecentResponses recentBuf3 2 =
      ((recentBuf3.reverse.take (min (2 : Int).toNat recentBuf3.length)).reverse).map
        cloneResponse :=
  ⟨by decide, ((getRecentResponses_spec recentBuf3 2).2.1 (by decide)).1⟩

/-- C10: every trimmed input that does not start with `/aidis_` and is not
exactly `/help` is routed to the shell handler; in particular the
unrecognized slash directive `/foo` goes to the shell and (passing the empty
check and the denylist) is spawned, not rejected as an unknown directive. -/
theorem routeCommand_shell_default (input : String)
    (h1 : startsWithLit (jsTrim input) "/aidis_" = false)
    (h2 : (jsTrim input == "/help") = false) :
    routeCommand input = .shell (jsTrim input) ∧
    routeCommand "/foo" = .shell "/foo" ∧
    dispatchDecision "/foo" = .shellAct (.spawnProcess "/foo") := by
  refine ⟨?_, by decide, by decide⟩
  simp only [routeCommand, h1, h2, Bool.false_eq_true, if_false]

theorem routeCommand_shell_default_witness :
    startsWithLit (jsTrim "/foo bar") "/aidis_" = false ∧
    (jsTrim "/foo bar" == "/help") = false ∧
    routeCommand "/foo bar" = .shell (jsTrim "/foo bar") :=
  ⟨by decide, by decide,
    (routeCommand_shell_default "/foo bar" (by decide) (by decide)).1⟩

/-- C4: for every input routed as a shell command, if the (trimmed) command
contains, case-insensitively, any denylisted substring, the dispatch outcome
is a safety rejection naming a denylist entry, and the spawn branch is
unreachable — no process is ever created. -/
theorem shellSafety_denylist_blocks (input : String)
    (hroute : routeCommand input = .shell (jsTrim input))
    (h : ∃ b ∈ BLOCKED_COMMANDS,
      strIncludes (lowerStr (jsTrim input)) (lowerStr b) = true) :
    (∃ b ∈ BLOCKED_COMMANDS,
      dispatchDecision input = .shellAct (.blockedBySafety b)) ∧
    (∀ s, dispatchDecision input ≠ .shellAct (.spawnProcess s)) := by
  have hdisp : dispatchDecision input = .shellAct (shellDecision (jsTrim input)) := by
    simp only [dispatchDecision, hroute]
  obtain ⟨b, hb, hblocked⟩ := shellDecision_blocked h
  constructor
  · exact ⟨b, hb, by rw [hdisp, hblocked]⟩
  · intro s hcon
    rw [hdisp, hblocked] at hcon
    simp at hcon

/-- C6: while disconnected, `executeCommand` and the typed wrappers
`storeContext`/`createTask` all fail immediately by throwing the
"not connected" error, and the list of issued HTTP requests is empty — zero
network attempts. -/
theorem client_disconnected_rejects (c : AidisClient) (hc : c.connected = false) :
    (∀ command payload, executeCommand c command payload =
      (.error "Client not connected. Call connect() first.", [])) ∧
    (∀ content typ options, storeContext c content typ options =
      (.error "Client not connected. Call connect() first.", [])) ∧
    (∀ title options, createTask c title options =
      (.error "Client not connected. Call connect() first.", [])) := by
  have hexec : ∀ command payload, executeCommand c command payload =
      (.error "Client not connected. Call connect() first.", []) := by
    intro command payload
    simp [executeCommand, hc]
  exact ⟨hexec, fun content typ options => hexec _ _, fun title options => hexec _ _⟩

def disconnectedClient : AidisClient :=
  { connected := false, http := fun _ _ => .success .jnull }

theorem client_disconnected_rejects_witness :
    disconnectedClient.connected = false ∧
    executeCommand disconnectedClient "context_store" [] =
      (.error "Client not connected. Call connect() first.", []) ∧
    storeContext disconnectedClient "x" "code" [] =
      (.error "Client not connected. Call connect() first.", []) :=
  ⟨rfl, (client_disconnected_rejects disconnectedClient rfl).1 "context_store" [],
    (client_disconnected_rejects disconnectedClient rfl).2.1 "x" "code" []⟩

/-- C7: while connected, `executeCommand` issues exactly one request whose
payload always carries the fixed ridge-code `projectId`, and it never throws:
whatever the wire produced, the call returns an `McpResponse`; a truthy
service reply yields `{success: true, data}`, while service-reported
failures, transport errors and thrown exceptions all yield the same
`{success: false, error}` shape, differing only in the error string. -/
theorem executeCommand_connected_normalizes (c : AidisClient)
    (hc : c.connected = true) (command : String)
    (payload : List (String × JsonValue)) :
    (executeCommand c command payload).2 =
      [(command, objSet payload "projectId" (.jstr ridgeProjectId))] ∧
    objLookup (objSet payload "projectId" (.jstr ridgeProjectId)) "projectId" =
      some (.jstr ridgeProjectId) ∧
    (∃ resp, (executeCommand c command payload).1 = .ok resp) ∧
    (∀ result,
      c.http command (objSet payload "projectId" (.jstr ridgeProjectId)) =
        .success result →
      (executeCommand c command payload).1 = .ok ⟨true, some result, none⟩) ∧
    (∀ err,
      c.http command (objSet payload "projectId" (.jstr ridgeProjectId)) =
        .apiFailure err →
      (executeCommand c command payload).1 =
        .ok ⟨false, none, some (jsOrDefault err "Unknown API error")⟩) ∧
    (∀ respErr msg,
      c.http command (objSet payload "projectId" (.jstr ridgeProjectId)) =
        .axiosError respErr msg →
      (executeCommand c command payload).1 =
        .ok ⟨false, none, some ("HTTP Error: " ++ jsOrDefault respErr msg)⟩) ∧
    (∀ msg,
      c.http command (objSet payload "projectId" (.jstr ridgeProjectId)) =
        .thrownError msg →
      (executeCommand c command payload).1 = .ok ⟨false, none, some msg⟩) := by
  have hexec := executeCommand_connected c hc command payload
  refine ⟨by rw [hexec], objLookup_objSet payload "projectId" (.jstr ridgeProjectId),
    ⟨normalizeOutcome
      (c.http command (objSet payload "projectId" (.jstr ridgeProjectId))),
      by rw [hexec]⟩, ?_, ?_, ?_, ?_⟩
  · intro result hout
    rw [hexec]
    simp [normalizeOutcome, hout]
  · intro err hout
    rw [hexec]
    simp [normalizeOutcome, hout]
  · intro respErr msg hout
    rw [hexec]
    simp [normalizeOutcome, hout]
  · intro msg hout
    rw [hexec]
    simp [normalizeOutcome, hout]

def connectedClient : AidisClient :=
  { connected := true, http := fun _ _ => .success .jnull }

theorem executeCommand_connected_normalizes_witness :
    connectedClient.connected = true ∧
    (executeCommand connectedClient "context_store" [("a", .jnull)]).2 =
      [("context_store",
        objSet [("a", .jnull)] "projectId" (.jstr ridgeProjectId))] ∧
    objLookup (objSet [("a", .jnull)] "projectId" (.jstr ridgeProjectId))
      "projectId" = some (.jstr ridgeProjectId) :=
  ⟨rfl,
    (executeCommand_connected_normalizes connectedClient rfl "context_store"
      [("a", .jnull)]).1,
    (executeCommand_connected_normalizes connectedClient rfl "context_store"
      [("a", .jnull)]).2.1⟩

/-- C5: `connect()` retries with delay `min(baseDelay * 2^attempt, maxDelay)`
plus a jitter of `Math.random() * 0.1 *` that delay, for up to `maxRetries`
retries after the first attempt (defaults: 3 retries, base 1000, max 10000);
with the default config and an attempt sequence failing twice then
succeeding, it resolves successfully after exactly 3 underlying attempts;
and when every attempt fails it raises a single connection-failure error
rather than surfacing per-attempt failures. -/
theorem connect_retry_backoff :
    (∀ jitter, connect none (fun n => decide (2 ≤ n)) jitter =
      .ok (3, [1000 + jitter 0 * (1 / 10) * 1000,
        2000 + jitter 1 * (1 / 10) * 2000])) ∧
    (∀ cfg attemptOk jitter n sleeps,
      connect cfg attemptOk jitter = .ok (n, sleeps) →
      n ≤ (cfg.map RetryCfg.maxRetries).getD 3 + 1 ∧
      sleeps = (List.range (n - 1)).map (fun i =>
        min (((cfg.map RetryCfg.baseDelay).getD 1000 : Rat) * 2 ^ i)
          (((cfg.map RetryCfg.maxDelay).getD 10000 : Rat)) +
        jitter i * (1 / 10) *
          min (((cfg.map RetryCfg.baseDelay).getD 1000 : Rat) * 2 ^ i)
            (((cfg.map RetryCfg.maxDelay).getD 10000 : Rat)))) ∧
    (∀ cfg attemptOk jitter, (∀ i, attemptOk i = false) →
      connect cfg attemptOk jitter =
        .error ("Failed to connect after " ++
          toString ((cfg.map RetryCfg.maxRetries).getD 3) ++ " attempts")) := by
  refine ⟨?_, ?_, ?_⟩
  · intro jitter
    show connectLoop (fun n => decide (2 ≤ n)) jitter 1000 10000 3 4 0 = _
    norm_num [connectLoop, min_def]
  · intro cfg attemptOk jitter n sleeps hok
    have := connectLoop_ok_spec attemptOk jitter
      ((cfg.map RetryCfg.baseDelay).getD 1000)
      ((cfg.map RetryCfg.maxDelay).getD 10000)
      ((cfg.map RetryCfg.maxRetries).getD 3)
      ((cfg.map RetryCfg.maxRetries).getD 3 + 1) 0 n sleeps (Nat.zero_le _) hok
    obtain ⟨h1, h2, h3⟩ := this
    refine ⟨h2, ?_⟩
    rw [h3]
    apply List.map_congr_left
    intro i hi
    simp only [Nat.zero_add]
  · intro cfg attemptOk jitter hfail
    exact connectLoop_all_fail attemptOk jitter
      ((cfg.map RetryCfg.baseDelay).getD 1000)
      ((cfg.map RetryCfg.maxDelay).getD 10000)
      ((cfg.map RetryCfg.maxRetries).getD 3) hfail
      ((cfg.map RetryCfg.maxRetries).getD 3 + 1) 0 (by omega) (Nat.zero_le _)

theorem connect_retry_backoff_witness :
    connect none (fun _ => false) (fun _ => (0 : Rat)) =
      .error ("Failed to connect after " ++
        toString ((Option.map RetryCfg.maxRetries (none : Option RetryCfg)).getD 3) ++
        " attempts") :=
  connect_retry_backoff.2.2 none (fun _ => false) (fun _ => (0 : Rat))
    (fun _ => rfl)

theorem shellSafety_denylist_blocks_witness :
    routeCommand "echo rm -rf (not really)" =
      .shell (jsTrim "echo rm -rf (not really)") ∧
    (∃ b ∈ BLOCKED_COMMANDS,
      strIncludes (lowerStr (jsTrim "echo rm -rf (not really)")) (lowerStr b) = true) ∧
    (∃ b ∈ BLOCKED_COMMANDS,
      dispatchDecision "echo rm -rf (not really)" =
        .shellAct (.blockedBySafety b)) :=
  ⟨by decide, by decide,
    (shellSafety_denylist_blocks "echo rm -rf (not really)" (by decide) (by decide)).1⟩

/-! ## C2 / C9: extractor theorems -/

def wellStoreLine : String :=
  "mcp__aidis__context_store \x7b\"content\":\"x\",\"type\":\"code\"\x7d"

def malformedLine : String :=
  "mcp__aidis__context_store \x7binvalid json\x7d"

def wellStoreCmd : ParsedAidisCommand :=
  ⟨"context_store", .jobj [("content", .jstr "x"), ("type", .jstr "code")]⟩

/-- C2 counterexample: a response that contains one well-formed store-command
marker and one malformed-JSON marker on the same line yields zero extracted
commands, not one — the greedy `\x7b.*\x7d` match runs to the last `\x7d` on
the line, absorbing the well-formed command into a single unparseable match.
(The first two conjuncts witness that the two fragments are, in isolation,
one well-formed and one malformed marker; the next two that the combined
response contains both.) -/
theorem extract_sameline_counterexample :
    extractCommands wellStoreLine = [wellStoreCmd] ∧
    extractCommands malformedLine = [] ∧
    strIncludes (wellStoreLine ++ " " ++ malformedLine) wellStoreLine = true ∧
    strIncludes (wellStoreLine ++ " " ++ malformedLine) malformedLine = true ∧
    extractCommands (wellStoreLine ++ " " ++ malformedLine) = [] :=
  ⟨rfl, rfl, rfl, rfl, rfl⟩

/-- C2 (amended): when the well-formed store-command marker and the
malformed-JSON marker sit on separate lines (as in the repo's own tests),
extraction yields exactly one `ParsedAidisCommand`, the well-formed one,
whichever order the lines appear in: the match whose JSON fails to parse is
skipped and extraction continues with the remaining matches. -/
theorem extract_skip_malformed_line :
    extractCommands (wellStoreLine ++ "\n" ++ malformedLine) = [wellStoreCmd] ∧
    extractCommands (malformedLine ++ "\n" ++ wellStoreLine) = [wellStoreCmd] :=
  ⟨rfl, rfl⟩

lemma lastCloseBrace_lt : ∀ {seg : List Char} {k : Nat},
    lastCloseBrace seg = some k → k < seg.length := by
  intro seg
  induction seg with
  | nil => intro k h; simp [lastCloseBrace] at h
  | cons c rest ih =>
    intro k h
    rw [lastCloseBrace] at h
    cases hrec : lastCloseBrace rest with
    | some k' =>
      rw [hrec] at h
      injection h with h
      subst h
      have := ih hrec
      simp only [List.length_cons]
      omega
    | none =>
      rw [hrec] at h
      by_cases hc : (c == '\x7d') = true
      · rw [if_pos hc] at h
        injection h with h
        subst h
        simp
      · rw [if_neg hc] at h
        exact absurd h (by simp)

lemma matchAt_bounds {cs : List Char} {i : Nat} {nm pl : String} {e : Nat}
    (h : matchAt cs i = some (nm, pl, e)) : i < e ∧ e ≤ cs.length := by
  unfold matchAt at h
  by_cases h1 : litAt cs i ("mcp__aidis__".data) = true
  swap
  · rw [if_neg h1] at h
    exact absurd h (by simp)
  rw [if_pos h1] at h
  dsimp only at h
  by_cases h2 : ((cs.drop (i + 12)).takeWhile wordChar).isEmpty = true
  · rw [if_pos h2] at h
    exact absurd h (by simp)
  rw [if_neg h2] at h
  by_cases h3 : ((cs.drop (i + 12 + ((cs.drop (i + 12)).takeWhile wordChar).length)).takeWhile
      jsSpace).isEmpty = true
  · rw [if_pos h3] at h
    exact absurd h (by simp)
  rw [if_neg h3] at h
  set p2 := i + 12 + ((cs.drop (i + 12)).takeWhile wordChar).length +
    ((cs.drop (i + 12 + ((cs.drop (i + 12)).takeWhile wordChar).length)).takeWhile
      jsSpace).length with hp2
  cases hget : cs.get? p2 with
  | none => rw [hget] at h; exact absurd h (by simp)
  | some c =>
    rw [hget] at h
    dsimp only at h
    by_cases hc : (c == '\x7b') = true
    swap
    · rw [if_neg hc] at h
      exact absurd h (by simp)
    rw [if_pos hc] at h
    cases hbr : lastCloseBrace ((cs.drop (p2 + 1)).takeWhile dotChar) with
    | none => rw [hbr] at h; exact absurd h (by simp)
    | some k =>
      rw [hbr] at h
      dsimp only at h
      have he : p2 + 1 + k + 1 = e := by
        have := Option.some.inj h
        have := congrArg (fun t => t.2.2) this
        simpa using this
      have hp2lt : p2 < cs.length := by
        rcases List.get?_eq_some.mp hget with ⟨hlt, _⟩
        exact hlt
      have hkl : k < ((cs.drop (p2 + 1)).takeWhile dotChar).length :=
        lastCloseBrace_lt hbr
      have hseg : ((cs.drop (p2 + 1)).takeWhile dotChar).length ≤
          cs.length - (p2 + 1) := by
        have hpre := (List.takeWhile_prefix (l := cs.drop (p2 + 1))
          (p := dotChar)).length_le
        simpa using hpre
      omega

lemma scanFrom_bounds {cs : List Char} : ∀ {fuel i : Nat} {nm pl : String} {e : Nat},
    scanFrom cs fuel i = some (nm, pl, e) → i < e ∧ e ≤ cs.length := by
  intro fuel
  induction fuel with
  | zero => intro i nm pl e h; simp [scanFrom] at h
  | succ fuel ih =>
    intro i nm pl e h
    rw [scanFrom] at h
    cases hm : matchAt cs i with
    | some r =>
      rw [hm] at h
      have : r = (nm, pl, e) := Option.some.inj h
      subst this
      exact matchAt_bounds hm
    | none =>
      rw [hm] at h
      have := ih h
      exact ⟨by omega, this.2⟩

lemma execPattern_bounds {s : String} {li : Nat} {nm pl : String} {e : Nat}
    (h : execPattern li s = some (nm, pl, e)) : li < e ∧ e ≤ s.data.length :=
  scanFrom_bounds h

lemma extractLoop_snd_eq_zero (s : String) : ∀ (fuel li : Nat)
    (acc : List ParsedAidisCommand), li ≤ s.data.length →
    s.data.length + 2 - li ≤ fuel → (extractLoop s fuel li acc).2 = 0 := by
  intro fuel
  induction fuel with
  | zero =>
    intro li acc h1 h2
    exact absurd h2 (by omega)
  | succ fuel ih =>
    intro li acc h1 h2
    rw [extractLoop]
    cases hm : execPattern li s with
    | none => rfl
    | some r =>
      obtain ⟨name, payloadText, e⟩ := r
      have hb := execPattern_bounds hm
      exact ih e _ hb.2 (by omega)

/-- C9: both extraction operations leave the shared pattern's `lastIndex` at 0
on every return path (`extractCommands` resets before scanning and its loop
exits through a failed `exec`, which zeroes `lastIndex`;
`validateCommandString` resets explicitly right after its single `exec`), so
repeated calls are independent: calling either operation twice in succession
from the reset state returns the same result both times, and
`extractCommands`' value never depends on the incoming scan position at
all. -/
theorem pattern_state_reset :
    (∀ li s, (extractCommandsSt li s).2 = 0) ∧
    (∀ li s, (validateCommandStringSt li s).2 = 0) ∧
    (∀ li li' s, (extractCommandsSt li s).1 = (extractCommandsSt li' s).1) ∧
    (∀ s, extractCommandsSt ((extractCommandsSt 0 s).2) s = extractCommandsSt 0 s) ∧
    (∀ s, validateCommandStringSt ((validateCommandStringSt 0 s).2) s =
      validateCommandStringSt 0 s) := by
  have hv : ∀ li s, (validateCommandStringSt li s).2 = 0 := by
    intro li s
    unfold validateCommandStringSt
    cases execPattern li s with
    | none => rfl
    | some r =>
      obtain ⟨name, payloadText, e⟩ := r
      dsimp only
      by_cases h1 : (name == "") = true
      · rw [if_pos h1]
      · rw [if_neg h1]
        cases jsonParse payloadText with
        | none => rfl
        | some payload =>
          dsimp only
          by_cases h2 : validateCommandPayload name payload = true
          · rw [if_pos h2]
          · rw [if_neg h2]
  have he : ∀ li s, (extractCommandsSt li s).2 = 0 := by
    intro li s
    exact extractLoop_snd_eq_zero s (s.data.length + 2) 0 [] (Nat.zero_le _) (by omega)
  refine ⟨he, hv, fun li li' s => rfl, fun s => rfl, fun s => ?_⟩
  rw [hv 0 s]

/-! ## C3: the `/aidis_store` handler -/

/-- Did the remote call for this (matching) command succeed? -/
def cmdSucceeds (c : AidisClient) (flag : String) (cmd : ParsedAidisCommand) : Bool :=
  match execFor c flag cmd with
  | .ok r => r.success
  | .error _ => false

/-- The per-item line the loop records for a matching command. -/
def lineFor (c : AidisClient) (flag : String) (cmd : ParsedAidisCommand) : String :=
  match execFor c flag cmd with
  | .ok r => if r.success then successLine flag cmd else failureLine flag cmd r.error
  | .error e => e

/-- The commands `/aidis_store` works on: extraction over the last 5 buffered
responses, in buffer order. -/
def parsedOf (buffer : List BufferedResponse) : List ParsedAidisCommand :=
  (getRecentResponses buffer 5).foldl (fun acc r => acc ++ extractCommands r.content) []

lemma execFor_connected (c : AidisClient) (hc : c.connected = true)
    (flag : String) (cmd : ParsedAidisCommand) :
    ∃ r, execFor c flag cmd = .ok r ∧ r.success = cmdSucceeds c flag cmd := by
  have hok : ∃ r, execFor c flag cmd = .ok r := by
    unfold execFor
    by_cases hf : (flag == "--context") = true
    · rw [if_pos hf]
      unfold storeContext
      rw [executeCommand_connected c hc]
      exact ⟨_, rfl⟩
    · rw [if_neg hf]
      unfold createTask
      rw [executeCommand_connected c hc]
      exact ⟨_, rfl⟩
  obtain ⟨r, hr⟩ := hok
  refine ⟨r, hr, ?_⟩
  unfold cmdSucceeds
  rw [hr]

lemma execFor_disconnected (c : AidisClient) (hc : c.connected = false)
    (flag : String) (cmd : ParsedAidisCommand) :
    execFor c flag cmd = .error "Client not connected. Call connect() first." := by
  unfold execFor
  by_cases hf : (flag == "--context") = true
  · rw [if_pos hf]
    unfold storeContext
    simp [executeCommand, hc]
  · rw [if_neg hf]
    unfold createTask
    simp [executeCommand, hc]

lemma storeFold_connected (c : AidisClient) (hc : c.connected = true) (flag : String) :
    ∀ (l : List ParsedAidisCommand) (s₀ : Nat × List String),
      l.foldlM (storeStep c flag) s₀ =
        .ok (s₀.1 +
            (l.filter (fun cmd => isMatch flag cmd && cmdSucceeds c flag cmd)).length,
          s₀.2 ++ (l.filter (isMatch flag)).map (lineFor c flag)) := by
  intro l
  induction l with
  | nil =>
    intro s₀
    simp only [List.foldlM, List.filter_nil, List.length_nil, List.map_nil,
      Nat.add_zero, List.append_nil]
    rfl
  | cons cmd rest ih =>
    intro s₀
    rw [List.foldlM_cons]
    by_cases hmatch : isMatch flag cmd = true
    · obtain ⟨r, hr, hrs⟩ := execFor_connected c hc flag cmd
      by_cases hsucc : r.success = true
      · have hstep : storeStep c flag s₀ cmd =
            .ok (s₀.1 + 1, s₀.2 ++ [successLine flag cmd]) := by
          unfold storeStep
          rw [if_pos hmatch, hr]
          dsimp only
          rw [if_pos hsucc]
        rw [hstep]
        show rest.foldlM (storeStep c flag) _ = _
        rw [ih]
        have hcs : cmdSucceeds c flag cmd = true := by rw [← hrs]; exact hsucc
        have hline : lineFor c flag cmd = successLine flag cmd := by
          unfold lineFor
          rw [hr]
          dsimp only
          rw [if_pos hsucc]
        refine congrArg Except.ok (Prod.ext ?_ ?_)
        · simp only [List.filter_cons, hmatch, hcs, Bool.and_self, if_true,
            List.length_cons]
          omega
        · simp [List.filter_cons, hmatch, hcs, hline, List.append_assoc]
      · have hstep : storeStep c flag s₀ cmd =
            .ok (s₀.1, s₀.2 ++ [failureLine flag cmd r.error]) := by
          unfold storeStep
          rw [if_pos hmatch, hr]
          dsimp only
          rw [if_neg hsucc]
        rw [hstep]
        show rest.foldlM (storeStep c flag) _ = _
        rw [ih]
        have hcs : cmdSucceeds c flag cmd = false := by rw [← hrs]; simpa using hsucc
        have hline : lineFor c flag cmd = failureLine flag cmd r.error := by
          unfold lineFor
          rw [hr]
          dsimp only
          rw [if_neg hsucc]
        refine congrArg Except.ok (Prod.ext ?_ ?_)
        · simp [List.filter_cons, hmatch, hcs]
        · simp [List.filter_cons, hmatch, hcs, hline, List.append_assoc]
    · have hstep : storeStep c flag s₀ cmd = .ok s₀ := by
        unfold storeStep
        rw [if_neg hmatch]
      rw [hstep]
      show rest.foldlM (storeStep c flag) _ = _
      rw [ih]
      have hm : isMatch flag cmd = false := by simpa using hmatch
      refine congrArg Except.ok (Prod.ext ?_ ?_)
      · simp [List.filter_cons, hm]
      · simp [List.filter_cons, hm]

lemma storeFold_disconnected (c : AidisClient) (hc : c.connected = false) (flag : String) :
    ∀ (l : List ParsedAidisCommand) (s₀ : Nat × List String),
      l.foldlM (storeStep c flag) s₀ =
        if l.any (isMatch flag) then
          .error "Client not connected. Call connect() first."
        else .ok s₀ := by
  intro l
  induction l with
  | nil => intro s₀; rfl
  | cons cmd rest ih =>
    intro s₀
    rw [List.foldlM_cons]
    by_cases hmatch : isMatch flag cmd = true
    · have hstep : storeStep c flag s₀ cmd =
          .error "Client not connected. Call connect() first." := by
        unfold storeStep
        rw [if_pos hmatch, execFor_disconnected c hc flag cmd]
      rw [hstep]
      have hany : (cmd :: rest).any (isMatch flag) = true := by
        simp [List.any_cons, hmatch]
      rw [if_pos hany]
      rfl
    · have hstep : storeStep c flag s₀ cmd = .ok s₀ := by
        unfold storeStep
        rw [if_neg hmatch]
      rw [hstep]
      show rest.foldlM (storeStep c flag) _ = _
      rw [ih]
      have hm : isMatch flag cmd = false := by simpa using hmatch
      simp [List.any_cons, hm]

lemma isEmpty_false_of_ne_nil {α : Type _} {l : List α} (h : l ≠ []) :
    l.isEmpty = false := by
  cases l with
  | nil => exact absurd rfl h
  | cons x xs => rfl

lemma getRecent5_not_isEmpty {buffer : List BufferedResponse} (hb : buffer ≠ []) :
    (getRecentResponses buffer 5).isEmpty = false := by
  apply isEmpty_false_of_ne_nil
  intro hcon
  have hlen : buffer.length ≠ 0 := by
    intro h0
    exact hb (List.length_eq_zero.mp h0)
  have : (getRecentResponses buffer 5).length = min (5 : Int).toNat buffer.length := by
    unfold getRecentResponses
    rw [if_neg (by norm_num : ¬ (5 : Int) ≤ 0)]
    simp only [List.length_map, List.length_drop]
    omega
  rw [hcon] at this
  simp only [List.length_nil] at this
  have h5 : (5 : Int).toNat = 5 := rfl
  rw [h5] at this
  omega

/-- Reduction of `handleAidisStore` on a nonempty buffer, to the extraction result
and the execution fold. -/
lemma handleAidisStore_eq (c : AidisClient) (buffer : List BufferedResponse)
    (flag : String) (rest : List String) (hb : buffer ≠ []) :
    handleAidisStore c buffer (flag :: rest) =
      if (parsedOf buffer).isEmpty then
        { success := false, output := none,
          error := some "No AIDIS commands found in recent responses",
          commandType := "aidis" }
      else
        match (parsedOf buffer).foldlM (storeStep c flag) (0, []) with
        | .error e =>
          { success := false, output := none, error := some e,
            commandType := "aidis" }
        | .ok (executed, results) =>
          if executed == 0 then
            { success := false, output := none,
              error := some ("No " ++
                (if flag == "--context" then "context_store" else "task_create") ++
                " commands found in recent responses"),
              commandType := "aidis" }
          else
            { success := true,
              output := some ("Executed " ++ toString executed ++ " commands:\n" ++
                String.intercalate "\n" results),
              error := none, commandType := "aidis" } := by
  have hcond : ¬ ((getRecentResponses buffer 5).isEmpty = true) := by
    rw [getRecent5_not_isEmpty hb]
    simp
  unfold handleAidisStore
  dsimp only
  rw [if_neg hcond]
  unfold parsedOf
  rfl

/-- C3: the `/aidis_store` handler requires a flag argument (success is only
possible when the first argument is `--context` or `--task`); with a flag it
pulls the last 5 buffered responses, extracts commands from them in buffer
order (`parsedOf`), executes the matching ones via the client, and fails
exactly when the buffer is empty, when no commands were extracted, or when
zero executions succeeded; if at least one execution succeeds the result is a
success carrying the per-item multi-line summary (one line per matching
command, successes and failures interleaved); a disconnected client can never
produce a success. -/
theorem handleAidisStore_spec :
    (∀ c buffer, handleAidisStore c buffer [] =
      { success := false, output := none,
        error := some "aidis_store requires --context or --task flag",
        commandType := "aidis" }) ∧
    (∀ c buffer args, (handleAidisStore c buffer args).success = true →
      ∃ rest, args = "--context" :: rest ∨ args = "--task" :: rest) ∧
    (∀ c flag rest, handleAidisStore c [] (flag :: rest) =
      { success := false, output := none,
        error := some "No responses found in buffer to store",
        commandType := "aidis" }) ∧
    (∀ c buffer flag rest, buffer ≠ [] → parsedOf buffer = [] →
      handleAidisStore c buffer (flag :: rest) =
        { success := false, output := none,
          error := some "No AIDIS commands found in recent responses",
          commandType := "aidis" }) ∧
    (∀ c buffer flag rest, c.connected = true → buffer ≠ [] →
      parsedOf buffer ≠ [] →
      (((handleAidisStore c buffer (flag :: rest)).success = true) ↔
        (parsedOf buffer).filter
          (fun cmd => isMatch flag cmd && cmdSucceeds c flag cmd) ≠ []) ∧
      ((parsedOf buffer).filter
          (fun cmd => isMatch flag cmd && cmdSucceeds c flag cmd) ≠ [] →
        (handleAidisStore c buffer (flag :: rest)).output =
          some ("Executed " ++
            toString ((parsedOf buffer).filter
              (fun cmd => isMatch flag cmd && cmdSucceeds c flag cmd)).length ++
            " commands:\n" ++
            String.intercalate "\n"
              (((parsedOf buffer).filter (isMatch flag)).map (lineFor c flag))))) ∧
    (∀ c buffer flag rest, c.connected = false → buffer ≠ [] →
      parsedOf buffer ≠ [] →
      (handleAidisStore c buffer (flag :: rest)).success = false) := by
  have hempty : ∀ (c : AidisClient) (flag : String) (rest : List String),
      handleAidisStore c [] (flag :: rest) =
        { success := false, output := none,
          error := some "No responses found in buffer to store",
          commandType := "aidis" } := by
    intro c flag rest
    rfl
  have hconn : ∀ (c : AidisClient) buffer flag rest, c.connected = true →
      buffer ≠ [] → parsedOf buffer ≠ [] →
      handleAidisStore c buffer (flag :: rest) =
        (if ((parsedOf buffer).filter
            (fun cmd => isMatch flag cmd && cmdSucceeds c flag cmd)).length = 0 then
          { success := false, output := none,
            error := some ("No " ++
              (if flag == "--context" then "context_store" else "task_create") ++
              " commands found in recent responses"),
            commandType := "aidis" }
        else
          { success := true,
            output := some ("Executed " ++
              toString ((parsedOf buffer).filter
                (fun cmd => isMatch flag cmd && cmdSucceeds c flag cmd)).length ++
              " commands:\n" ++
              String.intercalate "\n"
                (((parsedOf buffer).filter (isMatch flag)).map (lineFor c flag))),
            error := none, commandType := "aidis" }) := by
    intro c buffer flag rest hc hb hp
    rw [handleAidisStore_eq c buffer flag rest hb,
      if_neg (by rw [isEmpty_false_of_ne_nil hp]; simp),
      storeFold_connected c hc flag (parsedOf buffer) (0, [])]
    dsimp only
    rw [List.nil_append]
    by_cases hz : ((parsedOf buffer).filter
        (fun cmd => isMatch flag cmd && cmdSucceeds c flag cmd)).length = 0
    · rw [if_pos hz]
      have hcz : (0 + ((parsedOf buffer).filter
          (fun cmd => isMatch flag cmd && cmdSucceeds c flag cmd)).length == 0) =
          true := by
        simp [hz]
      rw [hcz, if_pos rfl]
    · rw [if_neg hz]
      have hcz : (0 + ((parsedOf buffer).filter
          (fun cmd => isMatch flag cmd && cmdSucceeds c flag cmd)).length == 0) =
          false := by
        apply Bool.eq_false_iff.mpr
        intro hcon
        have := (beq_iff_eq ..).mp hcon
        omega
      rw [hcz]
      simp only [Bool.false_eq_true, if_false, Nat.zero_add]
  refine ⟨fun c buffer => rfl, ?_, hempty, ?_, ?_, ?_⟩
  · -- success requires the --context or --task flag
    intro c buffer args hsucc
    cases args with
    | nil =>
      have h0 : (handleAidisStore c buffer []).success = false := rfl
      rw [h0] at hsucc
      simp at hsucc
    | cons flag rest =>
      refine ⟨rest, ?_⟩
      by_cases hb : buffer = []
      · subst hb
        rw [hempty c flag rest] at hsucc
        simp at hsucc
      by_cases hp : parsedOf buffer = []
      · rw [handleAidisStore_eq c buffer flag rest hb, hp] at hsucc
        simp at hsucc
      cases hcc : c.connected with
      | false =>
        rw [handleAidisStore_eq c buffer flag rest hb,
          if_neg (by rw [isEmpty_false_of_ne_nil hp]; simp),
          storeFold_disconnected c hcc flag (parsedOf buffer) (0, [])] at hsucc
        by_cases hany : (parsedOf buffer).any (isMatch flag) = true
        · rw [if_pos hany] at hsucc
          simp at hsucc
        · rw [if_neg hany] at hsucc
          simp at hsucc
      | true =>
        rw [hconn c buffer flag rest hcc hb hp] at hsucc
        by_cases hz : ((parsedOf buffer).filter
            (fun cmd => isMatch flag cmd && cmdSucceeds c flag cmd)).length = 0
        · rw [if_pos hz] at hsucc
          simp at hsucc
        · have hne : (parsedOf buffer).filter
              (fun cmd => isMatch flag cmd && cmdSucceeds c flag cmd) ≠ [] := by
            intro hcon
            rw [hcon] at hz
            simp at hz
          obtain ⟨cmd, hcmdmem⟩ := List.exists_mem_of_ne_nil _ hne
          have hpred := List.of_mem_filter hcmdmem
          have hM : isMatch flag cmd = true := by
            have := Bool.and_eq_true_iff.mp hpred
            exact this.1
          unfold isMatch at hM
          rcases (Bool.or_eq_true _ _) ▸ hM with hctx | htask
          · left
            have := (Bool.and_eq_true_iff.mp hctx).1
            rw [(beq_iff_eq ..).mp this]
          · right
            have := (Bool.and_eq_true_iff.mp htask).1
            rw [(beq_iff_eq ..).mp this]
  · -- nonempty buffer, no extracted commands
    intro c buffer flag rest hb hp
    rw [handleAidisStore_eq c buffer flag rest hb, hp]
    rfl
  · -- connected characterization
    intro c buffer flag rest hc hb hp
    rw [hconn c buffer flag rest hc hb hp]
    by_cases hz : ((parsedOf buffer).filter
        (fun cmd => isMatch flag cmd && cmdSucceeds c flag cmd)).length = 0
    · rw [if_pos hz]
      have hzl : (parsedOf buffer).filter
          (fun cmd => isMatch flag cmd && cmdSucceeds c flag cmd) = [] :=
        List.length_eq_zero.mp hz
      constructor
      · simp [hzl]
      · intro hcon
        exact absurd hzl hcon
    · rw [if_neg hz]
      constructor
      · constructor
        · intro _
          intro hcon
          rw [hcon] at hz
          simp at hz
        · intro _
          rfl
      · intro _
        rfl
  · -- disconnected: never a success
    intro c buffer flag rest hc hb hp
    rw [handleAidisStore_eq c buffer flag rest hb,
      if_neg (by rw [isEmpty_false_of_ne_nil hp]; simp),
      storeFold_disconnected c hc flag (parsedOf buffer) (0, [])]
    by_cases hany : (parsedOf buffer).any (isMatch flag) = true
    · rw [if_pos hany]
    · rw [if_neg hany]
      rfl

def storeBuf : List BufferedResponse :=
  [⟨wellStoreLine, 0, defaultMetadata⟩]

theorem handleAidisStore_spec_witness :
    connectedClient.connected = true ∧ storeBuf ≠ [] ∧ parsedOf storeBuf ≠ [] ∧
    ((handleAidisStore connectedClient storeBuf ["--context"]).success = true ↔
      (parsedOf storeBuf).filter
        (fun cmd => isMatch "--context" cmd &&
          cmdSucceeds connectedClient "--context" cmd) ≠ []) := by
  have h1 : parsedOf storeBuf ≠ [] := by
    intro hcon
    have : parsedOf storeBuf = [wellStoreCmd] := rfl
    rw [this] at hcon
    cases hcon
  refine ⟨rfl, by simp [storeBuf], h1, ?_⟩
  exact (handleAidisStore_spec.2.2.2.2.1 connectedClient storeBuf "--context" []
    rfl (by simp [storeBuf]) h1).1

end RidgeCode
